import Mathlib

/-!
Verification of `scripts/auto_login.py` (ClawCloud auto-login script).

This file gives a shallow embedding of the pure decision logic of the
script and proves/refutes the frozen claims about it.  Machine strings are
modelled as Lean `String`/`List Char` (the script only manipulates ASCII
URLs, cookie names and Telegram commands, so the Unicode-aware Python
`lower()`/`strip()`/`\s`/`\d` coincide with the ASCII behaviour modelled
here).  Stateful browser interaction is modelled by explicit traces
(`Nat → String` giving the page URL observed at each polling second) and
explicit state records; network I/O results are inputs of the embedded
functions.
-/

namespace AutoLoginModel

/-! ## Basic character/string primitives (Python `in`, `lower`, `strip`) -/

/-- Python `str.lower` restricted to ASCII (all strings in the script are ASCII). -/
def lowerStr (s : String) : String := String.mk (s.toList.map Char.toLower)

/-- `isPrefixOfC needle hay`: `needle` is a prefix of `hay` (executable). -/
def isPrefixOfC : List Char → List Char → Bool
  | [], _ => true
  | _ :: _, [] => false
  | a :: as, b :: bs => a = b && isPrefixOfC as bs

/-- `containsC needle hay`: Python `needle in hay` substring test. -/
def containsC (needle : List Char) : List Char → Bool
  | [] => isPrefixOfC needle []
  | c :: cs => isPrefixOfC needle (c :: cs) || containsC needle cs

/-- Python `needle in hay` on strings. -/
def strContains (hay needle : String) : Bool := containsC needle.toList hay.toList

/-- ASCII whitespace, the Python `\s` class and `str.strip` on ASCII text. -/
def isWS (c : Char) : Bool :=
  c = ' ' || c = '\t' || c = '\n' || c = '\r' || c = '\x0b' || c = '\x0c'

/-- ASCII decimal digit, the Python `\d` class on ASCII text. -/
def isDigitC (c : Char) : Bool := '0' ≤ c && c ≤ '9'

/-- Lowercase ASCII letter, the regex class `[a-z]`. -/
def isLowerAZ (c : Char) : Bool := 'a' ≤ c && c ≤ 'z'

/-- Python `str.strip()` (ASCII whitespace from both ends). -/
def stripC (cs : List Char) : List Char :=
  ((cs.dropWhile isWS).reverse.dropWhile isWS).reverse

/-- Consume one-or-more characters satisfying `p` (greedy `p+`); returns the rest. -/
def consume1 (p : Char → Bool) : List Char → Option (List Char)
  | [] => none
  | c :: cs => if p c then some (cs.dropWhile p) else none

/-- Consume an exact literal; returns the rest. -/
def consumeLit : List Char → List Char → Option (List Char)
  | [], cs => some cs
  | _ :: _, [] => none
  | l :: ls, c :: cs => if c = l then consumeLit ls cs else none

/-- `endsWithC cs suffix`: Python `str.endswith`. -/
def endsWithC (cs suffix : List Char) : Bool := isPrefixOfC suffix.reverse cs.reverse

/-- One fuel-indexed step list for Python `str.replace(needle, repl)` (replace
all non-overlapping occurrences, scanning left to right).  The fuel is the
length of the scanned list, which is always sufficient. -/
def replaceAllFuel (needle repl : List Char) : Nat → List Char → List Char
  | _, [] => []
  | 0, cs => cs
  | fuel + 1, c :: cs =>
      if isPrefixOfC needle (c :: cs) then
        repl ++ replaceAllFuel needle repl fuel (List.drop (needle.length - 1) cs)
      else
        c :: replaceAllFuel needle repl fuel cs

/-- Python `str.replace(needle, repl)` for a non-empty `needle`. -/
def replaceAllC (needle repl cs : List Char) : List Char :=
  replaceAllFuel needle repl cs.length cs

/-! ## `urllib.parse.urlparse`: scheme and netloc

Model of the CPython `urlsplit` algorithm for the pieces the script reads
(`parsed.scheme`, `parsed.netloc`): an optional scheme (a leading
alphabetic character followed by alphanumerics/`+`/`-`/`.` up to the first
`:`) is split off, and if the remainder starts with `//` the netloc runs
to the first `/`, `?` or `#`. -/

/-- A character allowed inside a URL scheme. -/
def schemeChar (c : Char) : Bool :=
  isLowerAZ c || ('A' ≤ c && c ≤ 'Z') || isDigitC c || c = '+' || c = '-' || c = '.'

/-- ASCII alphabetic. -/
def isAlphaC (c : Char) : Bool := isLowerAZ c || ('A' ≤ c && c ≤ 'Z')

/-- Split at the first `:`, returning (before, after); `none` if no colon. -/
def findColonSplit : List Char → Option (List Char × List Char)
  | [] => none
  | c :: cs =>
      if c = ':' then some ([], cs)
      else
        match findColonSplit cs with
        | some (pre, post) => some (c :: pre, post)
        | none => none

/-- A valid, non-empty scheme candidate (first char alphabetic, all chars scheme chars). -/
def validScheme : List Char → Bool
  | [] => false
  | c :: cs => isAlphaC c && (c :: cs).all schemeChar

/-- Split off the URL scheme: returns (lower-cased scheme, remainder after `:`),
or an empty scheme and the whole input when no valid scheme is present. -/
def splitSchemeC (cs : List Char) : List Char × List Char :=
  match findColonSplit cs with
  | some (pre, post) => if validScheme pre then (pre.map Char.toLower, post) else ([], cs)
  | none => ([], cs)

/-- The netloc of the post-scheme remainder: present only after `//`, up to `/ ? #`. -/
def netlocOfRest : List Char → List Char
  | '/' :: '/' :: rest => rest.takeWhile fun c => !(c = '/' || c = '?' || c = '#')
  | _ => []

/-- `urlparse(url).scheme`. -/
def urlScheme (url : String) : String := String.mk (splitSchemeC url.toList).1

/-- `urlparse(url).netloc`. -/
def urlNetloc (url : String) : String := String.mk (netlocOfRest (splitSchemeC url.toList).2)

/-! ## URL predicates of the script (`AutoLogin.is_signin_url`, `AutoLogin.is_run_cloud_url`) -/

/-- `AutoLogin.is_signin_url` (auto_login.py:241-249): lowercases the URL;
`/signin` anywhere means sign-in page, and `/login` also does unless the
URL mentions `github.com`. -/
def is_signin_url (url : String) : Bool :=
  let u := lowerStr url
  if strContains u "/signin" then true
  else if !strContains u "github.com" && strContains u "/login" then true
  else false

/-- `AutoLogin.is_run_cloud_url` (auto_login.py:251-252):
`re.match(r"^https://[a-z]+-[a-z]+-\d+\.run\.claw\.cloud", url)`, an
(unanchored at the right) prefix match.  Since `-` and `.` are outside
`[a-z]` and `\d`, the greedy left-to-right matcher below is equivalent to
the backtracking regex. -/
def is_run_cloud_url (url : String) : Bool :=
  match consumeLit "https://".toList url.toList with
  | none => false
  | some r1 =>
    match consume1 isLowerAZ r1 with
    | none => false
    | some r2 =>
      match r2 with
      | '-' :: r3 =>
        match consume1 isLowerAZ r3 with
        | none => false
        | some r4 =>
          match r4 with
          | '-' :: r5 =>
            match consume1 isDigitC r5 with
            | none => false
            | some r6 => (consumeLit ".run.claw.cloud".toList r6).isSome
          | _ => false
      | _ => false

/-- `AutoLogin.assert_runcloud_not_signin` (auto_login.py:658-666), the final
authoritative success predicate of the run: the final URL matches the
`run.claw.cloud` prefix regex and is not a sign-in URL.  It consults only
`page.url`, never the DOM. -/
def assert_runcloud_not_signin (url : String) : Bool :=
  is_run_cloud_url url && !is_signin_url url

/-! ## Region detection (`AutoLogin.detect_region`, `AutoLogin.get_base_url`) -/

/-- The region-related mutable fields of the `AutoLogin` object. -/
structure RegionState where
  detected_region : Option String
  region_base_url : Option String
deriving DecidableEq

/-- The initial region state (`__init__`): nothing detected. -/
def initRegionState : RegionState := ⟨none, none⟩

/-- `AutoLogin.detect_region` (auto_login.py:254-280).  Returns the detected
region (or `none`) and the updated state.  Faithful points: the suffix
tests are `str.endswith` with an apex-domain exclusion; the region is the
host with every occurrence of the suffix removed (`str.replace`); legacy
`*.console.claw.cloud` hosts are rebuilt onto the `run.claw.cloud` domain;
any other URL still overwrites `region_base_url` with `scheme://netloc`. -/
def detect_region (st : RegionState) (url : String) : Option String × RegionState :=
  let host := urlNetloc url
  let hostC := host.toList
  if endsWithC hostC ".run.claw.cloud".toList && !(host = "run.claw.cloud") then
    let region := String.mk (replaceAllC ".run.claw.cloud".toList [] hostC)
    (some region, ⟨some region, some ("https://" ++ host)⟩)
  else if endsWithC hostC ".console.claw.cloud".toList && !(host = "console.claw.cloud") then
    let region := String.mk (replaceAllC ".console.claw.cloud".toList [] hostC)
    (some region, ⟨some region, some ("https://" ++ region ++ ".run.claw.cloud")⟩)
  else
    (none, ⟨st.detected_region, some (urlScheme url ++ "://" ++ host)⟩)

/-- `AutoLogin.get_base_url` (auto_login.py:282-293): forced base URL first,
then the detected `region_base_url`, then the static default. -/
def get_base_url (forced_base_url : Option String) (st : RegionState) : String :=
  match forced_base_url with
  | some b => b
  | none =>
    match st.region_base_url with
    | some b => b
    | none => "https://us-east-1.run.claw.cloud"

/-! ## Spec-side Login-State Classifier

The specification (§4.2) describes a DOM-aware classifier that the script
does not implement; it is embedded here, from the words of the spec, only to
compare the URL-only success predicate of the script against it. -/

/-- The `LoginState` enumeration of the spec (spec §3). -/
inductive LoginState where
  | UnauthenticatedEntry
  | ProviderCredentialPrompt
  | ProviderDeviceVerification
  | ProviderTwoFactor
  | ProviderOAuthConsent
  | TenantWelcome
  | TenantAuthenticated
  | Unknown
deriving DecidableEq

/-- A DOM snapshot abstracted to the two affordances rule 6 of the spec reads:
named provider-login buttons ("GitHub"/"Google") and a welcome banner. -/
structure DomSnapshot where
  providerLoginButtons : Bool
  welcomeBanner : Bool
deriving DecidableEq

/-- Host is a tenant subdomain in the sense of spec §4.1: a single non-empty
leading label followed by the known suffix domain `.run.claw.cloud`. -/
def isTenantHost (host : String) : Bool :=
  let cs := host.toList
  let suf := ".run.claw.cloud".toList
  endsWithC cs suf && decide (suf.length + 1 ≤ cs.length) &&
    (cs.take (cs.length - suf.length)).all fun c => !(c = '.')

/-- Modelled from the spec (§4.2): the ordered-rule Login-State Classifier,
a pure function of (URL, DOM snapshot).  The script has no such function;
this definition follows the eight first-match-wins rules of the spec, with the
provider-path markers taken from the URLs the script itself matches
(`verified-device`/`device-verification`, `sessions/two-factor/`,
`login/oauth/authorize`, `login`). -/
def specClassify (url : String) (dom : DomSnapshot) : LoginState :=
  let host := urlNetloc url
  let u := lowerStr url
  if host = "github.com" && (strContains u "verified-device" || strContains u "device-verification") then
    .ProviderDeviceVerification
  else if host = "github.com" && strContains u "/sessions/two-factor/" then
    .ProviderTwoFactor
  else if host = "github.com" && strContains u "/login/oauth/authorize" then
    .ProviderOAuthConsent
  else if host = "github.com" && strContains u "/login" then
    .ProviderCredentialPrompt
  else if isTenantHost host && strContains u "/signin" then
    .UnauthenticatedEntry
  else if isTenantHost host && (dom.providerLoginButtons || dom.welcomeBanner) then
    .TenantWelcome
  else if isTenantHost host then
    .TenantAuthenticated
  else
    .Unknown

/-! ## Telegram verification channel (`Telegram.flush_updates`, `Telegram.wait_code`)

A Telegram update is modelled by its `update_id`, the chat id of its
message, and the message text.  (An update without a message behaves
exactly like one from a foreign chat id: it is skipped after the cursor is
advanced past it; so it needs no separate constructor.)  `getUpdates` with
an `offset` returns, in order, the available updates whose `update_id` is
at least `offset`; the feed available at poll tick `t` is an input
`feed t` of the model.  Transient HTTP failures and long-poll batch limits
only delay delivery, which the arrival schedule already expresses. -/

structure Update where
  update_id : Nat
  chat_id : Int
  text : String
deriving DecidableEq

/-- The regex `^/code\s+(\d{6,8})$` applied with `re.match` to the stripped
message text (auto_login.py:92,113-116): returns the captured digit group.
Since `$` follows a greedy `\d{6,8}`, a text matches exactly when, after
`/code` and at least one whitespace character, the maximal digit run
reaches the end of the text and has length 6 to 8. -/
def codeOf (text : String) : Option String :=
  match stripC text.toList with
  | '/' :: 'c' :: 'o' :: 'd' :: 'e' :: rest =>
    match rest with
    | [] => none
    | c :: rest2 =>
      if isWS c then
        let rest3 := rest2.dropWhile isWS
        let ds := rest3.takeWhile isDigitC
        if rest3.dropWhile isDigitC = [] && 6 ≤ ds.length && ds.length ≤ 8 then
          some (String.mk ds)
        else none
      else none
  | _ => none

/-- The first update originating from the authorized chat whose text matches
the `/code` grammar (what one in-order scan of the stream accepts). -/
def findCode (chatId : Int) : List Update → Option String
  | [] => none
  | u :: rest =>
    if u.chat_id = chatId then
      match codeOf u.text with
      | some c => some c
      | none => findCode chatId rest
    else findCode chatId rest

/-- The body of the per-batch `for upd in result` loop of `wait_code`
(auto_login.py:106-116): advance the cursor past each update, skip foreign
chats and non-matching texts, return the first captured code.  Returns the
result and the final cursor. -/
def processBatch (chatId : Int) : List Update → Nat → Option String × Nat
  | [], offset => (none, offset)
  | u :: rest, _ =>
    if u.chat_id = chatId then
      match codeOf u.text with
      | some c => (some c, u.update_id + 1)
      | none => processBatch chatId rest (u.update_id + 1)
    else processBatch chatId rest (u.update_id + 1)

/-- The cursor value after scanning a batch without accepting a code: one
past the id of the last update, or the old cursor for an empty batch. -/
def advanceCursor (l : List Update) (o : Nat) : Nat :=
  match l.getLast? with
  | some u => u.update_id + 1
  | none => o

/-- `Telegram.flush_updates` (auto_login.py:65-80): one `getUpdates` without
an offset; returns last backlog `update_id + 1`, or 0 when the backlog is
empty (or the request failed). -/
def flush_updates (backlog : List Update) : Nat :=
  match backlog.getLast? with
  | some u => u.update_id + 1
  | none => 0

/-- The polling loop of `Telegram.wait_code` (auto_login.py:94-123): at tick
`t` fetch the available updates with ids `≥ offset`, scan them, stop on the
first accepted code, otherwise poll again with the advanced cursor until
the deadline (`fuel` ticks). -/
def wait_code_loop (chatId : Int) (feed : Nat → List Update) :
    Nat → Nat → Nat → Option String
  | 0, _, _ => none
  | fuel + 1, t, offset =>
    let batch := (feed t).filter fun u => decide (offset ≤ u.update_id)
    match processBatch chatId batch offset with
    | (some c, _) => some c
    | (none, offset2) => wait_code_loop chatId feed fuel (t + 1) offset2

/-- `Telegram.wait_code` (auto_login.py:82-123): flush the backlog to
initialize the cursor, then poll. -/
def wait_code (chatId : Int) (backlog : List Update) (feed : Nat → List Update)
    (fuel : Nat) : Option String :=
  wait_code_loop chatId feed fuel 0 (flush_updates backlog)

/-! ## Device-verification wait (`AutoLogin.wait_device`)

The page URL observed at second `i` of the wait is `trace i`. -/

/-- `DEVICE_VERIFY_WAIT` (auto_login.py:22). -/
def DEVICE_VERIFY_WAIT : Nat := 60

/-- One check of the `wait_device` loop body (auto_login.py:339-350), run on
the seconds with `i % 5 == 0`: success when on the OAuth authorize URL, or
when both device-verification markers are gone from the URL. -/
def device_tick (url : String) : Bool :=
  strContains url "github.com/login/oauth/authorize" ||
    (!strContains url "verified-device" && !strContains url "device-verification")

/-- The `for i in range(DEVICE_VERIFY_WAIT)` loop of `wait_device`
(auto_login.py:336-356) followed by the final OAuth check
(auto_login.py:358-366): counts `fuel` seconds down from second `i`. -/
def wait_device_loop (trace : Nat → String) : Nat → Nat → Bool
  | 0, i => strContains (trace i) "github.com/login/oauth/authorize"
  | fuel + 1, i =>
    if i % 5 = 0 && device_tick (trace i) then true
    else wait_device_loop trace fuel (i + 1)

/-- `AutoLogin.wait_device` (auto_login.py:322-366) as a function of the URL
trace (notifications and screenshots are I/O without influence on the
result). -/
def wait_device (trace : Nat → String) : Bool :=
  wait_device_loop trace DEVICE_VERIFY_WAIT 0

/-! ## Mobile two-factor wait (`AutoLogin.wait_two_factor_mobile`) -/

/-- One second of the `wait_two_factor_mobile` loop (auto_login.py:381-391):
`some true` = return success, `some false` = return failure, `none` = keep
waiting.  The not-on-two-factor-path test runs FIRST, so a URL qualifies
as failure only when it still contains the two-factor path and also
contains `github.com/login`. -/
def two_factor_tick (url : String) : Option Bool :=
  if !strContains url "github.com/sessions/two-factor/" then some true
  else if strContains url "github.com/login" then some false
  else none

/-- The `for i in range(TWO_FACTOR_WAIT)` loop of `wait_two_factor_mobile`
(auto_login.py:368-409); falls through to failure on timeout. -/
def wait_two_factor_mobile_loop (trace : Nat → String) : Nat → Nat → Bool
  | 0, _ => false
  | fuel + 1, i =>
    match two_factor_tick (trace i) with
    | some b => b
    | none => wait_two_factor_mobile_loop trace fuel (i + 1)

/-- `AutoLogin.wait_two_factor_mobile` with the default 120-second budget. -/
def wait_two_factor_mobile (trace : Nat → String) (wait : Nat := 120) : Bool :=
  wait_two_factor_mobile_loop trace wait 0

/-! ## Redirect wait (`AutoLogin.wait_redirect`) -/

/-- The `for i in range(wait)` loop of `wait_redirect` (auto_login.py:623-653):
on each second, if the URL matches the `run.claw.cloud` regex, record the
region and succeed unless the URL is still a sign-in URL; the OAuth
re-handling and the sign-in re-click only act on the page (absorbed by the
trace). -/
def wait_redirect_loop (trace : Nat → String) : Nat → Nat → RegionState → Bool × RegionState
  | 0, _, st => (false, st)
  | fuel + 1, i, st =>
    let url := trace i
    if is_run_cloud_url url then
      let st' := (detect_region st url).2
      if !is_signin_url url then (true, st')
      else wait_redirect_loop trace fuel (i + 1) st'
    else wait_redirect_loop trace fuel (i + 1) st

/-- `AutoLogin.wait_redirect` (auto_login.py:616-656), default 90 seconds. -/
def wait_redirect (trace : Nat → String) (st : RegionState) (wait : Nat := 90) :
    Bool × RegionState :=
  wait_redirect_loop trace wait 0 st

/-! ## Credential extraction and rotation (`get_session`, `save_cookie`) -/

/-- A browser cookie as read from `context.cookies()`. -/
structure Cookie where
  name : String
  domain : String
  value : String
deriving DecidableEq

/-- `AutoLogin.get_session` (auto_login.py:295-302): the value of the first
cookie named `user_session` whose domain contains `github.com`. -/
def get_session : List Cookie → Option String
  | [] => none
  | c :: cs =>
    if c.name = "user_session" && strContains c.domain "github.com" then some c.value
    else get_session cs

/-- What a rotation attempt did: nothing, a successful secret-store update,
or the degraded disclosure of the value over Telegram. -/
inductive RotationEffect where
  | noAttempt
  | updated
  | disclosed
deriving DecidableEq

/-- `AutoLogin.save_cookie` (auto_login.py:304-320): an empty (falsy) value
is ignored; otherwise the secret-store update is attempted and, on
failure, the value is disclosed through the channel. -/
def save_cookie (secretOk : Bool) (value : String) : RotationEffect :=
  if value = "" then .noAttempt
  else if secretOk then .updated else .disclosed

/-- Step 7 of `AutoLogin.run` (auto_login.py:861-866): extract the session
cookie and, only if one was found (Python truthiness), save it. -/
def rotationOf (cookies : List Cookie) (secretOk : Bool) : RotationEffect :=
  match get_session cookies with
  | some v => if v = "" then .noAttempt else save_cookie secretOk v
  | none => .noAttempt

/-! ## The run control flow (`AutoLogin.run`)

The run is driven by the outcomes of its I/O steps, which are inputs of
the model; the final verdict and the rotation reuse the real embedded
predicates.  Exceptions escaping a step are modelled by the failing outcome of that
step (both produce `sys.exit(1)`). -/

/-- Python truthiness of an optional string credential: missing or empty. -/
def credMissing : Option String → Bool
  | none => true
  | some s => s = ""

/-- The environment-supplied data and I/O outcomes of one run. -/
structure RunEnv where
  username : Option String
  password : Option String
  clickGithubOk : Bool
  redirectObserved : Bool
  urlAfterClick : String
  loginOk : Bool
  redirectTrace : Nat → String
  finalUrl : String
  cookies : List Cookie
  secretOk : Bool

/-- Process exit status. -/
inductive ExitStatus where
  | exit0
  | exit1
deriving DecidableEq

/-- The observable outcome of a run: exit status, rotation effect, and
whether a browser run was attempted at all. -/
structure RunOutcome where
  exit : ExitStatus
  rotation : RotationEffect
  attempted : Bool
deriving DecidableEq

/-- The branch condition of step 3 (auto_login.py:831): the post-click URL
requires a GitHub credential login. -/
def needsGithubLogin (url : String) : Bool :=
  strContains url "github.com/login" || strContains url "github.com/session"

/-- `AutoLogin.run` (auto_login.py:741-885): missing mandatory credentials
abort before any browser work (auto_login.py:755-758); each failed step
exits with status 1; after `wait_redirect` and the final
`assert_runcloud_not_signin` verdict both succeed, the cookie rotation is
attempted (its failure does not change the flow) and the process exits
with status 0. -/
def run (env : RunEnv) : RunOutcome :=
  if credMissing env.username || credMissing env.password then
    ⟨.exit1, .noAttempt, false⟩
  else if !env.clickGithubOk then ⟨.exit1, .noAttempt, true⟩
  else if !env.redirectObserved then ⟨.exit1, .noAttempt, true⟩
  else if needsGithubLogin env.urlAfterClick && !env.loginOk then ⟨.exit1, .noAttempt, true⟩
  else if !(wait_redirect env.redirectTrace initRegionState).1 then ⟨.exit1, .noAttempt, true⟩
  else if !assert_runcloud_not_signin env.finalUrl then ⟨.exit1, .noAttempt, true⟩
  else ⟨.exit0, rotationOf env.cookies env.secretOk, true⟩

/-- The same run environment with only the secret-store outcome changed
(used to state that a failed rotation alone never changes the exit status). -/
def setSecretOk (env : RunEnv) (b : Bool) : RunEnv :=
  ⟨env.username, env.password, env.clickGithubOk, env.redirectObserved, env.urlAfterClick,
   env.loginOk, env.redirectTrace, env.finalUrl, env.cookies, b⟩

/-! # Theorems -/

/-- C9: `is_signin_url` returns true iff the lowercased URL contains
`/signin`, or contains `/login` while not containing `github.com`; and
consequently any URL containing `/login` (and not `github.com`) is
rejected by the final success predicate `assert_runcloud_not_signin`,
whatever its host. -/
theorem C9_is_signin_url_characterization :
    ∀ url : String,
      (is_signin_url url = true ↔
        (strContains (lowerStr url) "/signin" = true ∨
          (strContains (lowerStr url) "github.com" = false ∧
            strContains (lowerStr url) "/login" = true))) ∧
      (strContains (lowerStr url) "/login" = true →
        strContains (lowerStr url) "github.com" = false →
        assert_runcloud_not_signin url = false) := by
  intro url
  refine ⟨?_, ?_⟩
  · simp only [is_signin_url]
    cases h1 : strContains (lowerStr url) "/signin" <;>
      cases h2 : strContains (lowerStr url) "github.com" <;>
        cases h3 : strContains (lowerStr url) "/login" <;> simp
  · intro h1 h2
    simp [assert_runcloud_not_signin, is_signin_url, h1, h2]

/-- C9 witness: a tenant URL whose path merely contains `/login` (no
`/signin` segment) is rejected by the final success predicate. -/
theorem C9_witness :
    strContains (lowerStr "https://us-east-1.run.claw.cloud/login") "/login" = true ∧
    strContains (lowerStr "https://us-east-1.run.claw.cloud/login") "github.com" = false ∧
    assert_runcloud_not_signin "https://us-east-1.run.claw.cloud/login" = false :=
  ⟨by decide, by decide,
    (C9_is_signin_url_characterization "https://us-east-1.run.claw.cloud/login").2
      (by decide) (by decide)⟩

/-- C2: the code, evaluated at the failing input.  At a poll tick where the
page has reverted to the provider login page `https://github.com/login`,
the tick (and therefore the whole mobile two-factor wait) returns SUCCESS,
because the not-on-two-factor-path test runs before the back-on-login
test; the failure branch can only fire on a URL that still contains the
two-factor session path and also contains `github.com/login`.  This
contradicts the claim (and the error branch of the code itself, which
reports needing a fresh login when back on the login page). -/
theorem C2_revert_to_login_tick_is_success :
    two_factor_tick "https://github.com/login" = some true ∧
    wait_two_factor_mobile (fun _ => "https://github.com/login") = true ∧
    two_factor_tick "https://github.com/sessions/two-factor/mobile" = none ∧
    two_factor_tick "https://github.com/sessions/two-factor/mobile?return_to=github.com/login" =
      some false := by
  refine ⟨by decide, ?_, by decide, by decide⟩
  rfl

/-- C1 counterexample: the final success verdict is URL-only.  The page at
`https://us-east-1.run.claw.cloud/` whose DOM shows provider-login buttons
and a welcome banner classifies as `Tenant-Welcome` under the
specification classifier, yet both `wait_redirect` and the final
`assert_runcloud_not_signin` judge it authenticated (its URL has no
`/signin` segment).  Moreover the success predicate does not require a
resolved region binding: the second URL passes the final assert while
`detect_region` returns `none` on it. -/
theorem C1_counterexample :
    specClassify "https://us-east-1.run.claw.cloud/" ⟨true, true⟩ = LoginState.TenantWelcome ∧
    (wait_redirect (fun _ => "https://us-east-1.run.claw.cloud/") initRegionState).1 = true ∧
    assert_runcloud_not_signin "https://us-east-1.run.claw.cloud/" = true ∧
    assert_runcloud_not_signin "https://ap-south-1.run.claw.cloud.evil.example/app" = true ∧
    (detect_region initRegionState "https://ap-south-1.run.claw.cloud.evil.example/app").1 =
      none := by
  refine ⟨by decide, ?_, by decide, by decide, by decide⟩
  rfl

/-- C1 (amended): the run declares success from the URL alone; a page whose
DOM classifies as `Tenant-Welcome` under the specification classifier IS
judged authenticated whenever its URL matches the `run.claw.cloud` prefix
regex and is not a sign-in URL (no region binding is consulted either). -/
theorem C1_amended_welcome_page_judged_authenticated
    (url : String) (dom : DomSnapshot)
    (hrun : is_run_cloud_url url = true)
    (hsign : is_signin_url url = false)
    (hclass : specClassify url dom = LoginState.TenantWelcome) :
    assert_runcloud_not_signin url = true ∧
      specClassify url dom ≠ LoginState.TenantAuthenticated := by
  refine ⟨by simp [assert_runcloud_not_signin, hrun, hsign], ?_⟩
  rw [hclass]
  intro h
  cases h

/-- C1 witness: the amended theorem applied at a concrete Tenant-Welcome
page. -/
theorem C1_amended_witness :
    is_run_cloud_url "https://us-east-1.run.claw.cloud/home" = true ∧
    is_signin_url "https://us-east-1.run.claw.cloud/home" = false ∧
    specClassify "https://us-east-1.run.claw.cloud/home" ⟨true, false⟩ =
      LoginState.TenantWelcome ∧
    assert_runcloud_not_signin "https://us-east-1.run.claw.cloud/home" = true :=
  ⟨by decide, by decide, by decide,
    (C1_amended_welcome_page_judged_authenticated "https://us-east-1.run.claw.cloud/home"
      ⟨true, false⟩ (by decide) (by decide) (by decide)).1⟩

/-- C10: on any URL whose host is neither a proper `*.run.claw.cloud`
subdomain nor a proper legacy `*.console.claw.cloud` subdomain,
`detect_region` returns `none` but still overwrites `region_base_url`
with `scheme://netloc` of that URL; with no forced region,
`get_base_url` then returns that origin at the detected-binding priority
instead of falling through to the static default. -/
theorem C10_detect_region_overwrites_base (st : RegionState) (url : String)
    (h1 : ¬(endsWithC (urlNetloc url).toList ".run.claw.cloud".toList = true ∧
            urlNetloc url ≠ "run.claw.cloud"))
    (h2 : ¬(endsWithC (urlNetloc url).toList ".console.claw.cloud".toList = true ∧
            urlNetloc url ≠ "console.claw.cloud")) :
    (detect_region st url).1 = none ∧
    (detect_region st url).2.region_base_url =
      some (urlScheme url ++ "://" ++ urlNetloc url) ∧
    get_base_url none (detect_region st url).2 = urlScheme url ++ "://" ++ urlNetloc url := by
  have v2 : (detect_region st url).2.region_base_url =
      some (urlScheme url ++ "://" ++ urlNetloc url) := by
    simp only [detect_region]
    split
    next hc =>
      rw [Bool.and_eq_true] at hc
      exact absurd ⟨hc.1, by simpa using hc.2⟩ h1
    next =>
      split
      next hc =>
        rw [Bool.and_eq_true] at hc
        exact absurd ⟨hc.1, by simpa using hc.2⟩ h2
      next => rfl
  have v1 : (detect_region st url).1 = none := by
    simp only [detect_region]
    split
    next hc =>
      rw [Bool.and_eq_true] at hc
      exact absurd ⟨hc.1, by simpa using hc.2⟩ h1
    next =>
      split
      next hc =>
        rw [Bool.and_eq_true] at hc
        exact absurd ⟨hc.1, by simpa using hc.2⟩ h2
      next => rfl
  exact ⟨v1, v2, by simp [get_base_url, v2]⟩

/-- C10 witness: a non-tenant URL overwrites a previously detected tenant
base URL and becomes the effective base, which is not the static default. -/
theorem C10_witness :
    (detect_region ⟨some "us-east-1", some "https://us-east-1.run.claw.cloud"⟩
        "https://example.com/x").1 = none ∧
    get_base_url none
        (detect_region ⟨some "us-east-1", some "https://us-east-1.run.claw.cloud"⟩
          "https://example.com/x").2 = "https://example.com" ∧
    "https://example.com" ≠ "https://us-east-1.run.claw.cloud" := by
  have h := C10_detect_region_overwrites_base
    ⟨some "us-east-1", some "https://us-east-1.run.claw.cloud"⟩
    "https://example.com/x" (by decide) (by decide)
  refine ⟨h.1, ?_, by decide⟩
  rw [h.2.2]
  rfl

/-- Helper: `get_session` returns `none` exactly when no cookie in the jar
is named `user_session` with a domain containing `github.com`. -/
theorem get_session_eq_none_iff (cookies : List Cookie) :
    get_session cookies = none ↔
      ∀ c ∈ cookies,
        ¬(c.name = "user_session" ∧ strContains c.domain "github.com" = true) := by
  induction cookies with
  | nil => simp [get_session]
  | cons c cs ih =>
    simp only [get_session]
    split
    next hc =>
      rw [Bool.and_eq_true, decide_eq_true_eq] at hc
      simp only [List.mem_cons]
      constructor
      · intro h
        exact absurd h (by simp)
      · intro h
        exact absurd ⟨hc.1, hc.2⟩ (h c (Or.inl rfl))
    next hc =>
      rw [ih]
      simp only [List.mem_cons]
      constructor
      · intro h c' hc'
        rcases hc' with hc' | hc'
        · subst hc'
          intro hmatch
          exact hc (by simp [hmatch.1, hmatch.2])
        · exact h c' hc'
      · intro h c' hc'
        exact h c' (Or.inr hc')

/-- Helper: if some cookie in the jar matches, `get_session` returns the
value of a matching cookie. -/
theorem get_session_finds (cookies : List Cookie)
    (h : ∃ c ∈ cookies, c.name = "user_session" ∧ strContains c.domain "github.com" = true) :
    ∃ c ∈ cookies, (c.name = "user_session" ∧ strContains c.domain "github.com" = true) ∧
      get_session cookies = some c.value := by
  induction cookies with
  | nil => simp at h
  | cons c cs ih =>
    simp only [get_session]
    split
    next hc =>
      rw [Bool.and_eq_true, decide_eq_true_eq] at hc
      exact ⟨c, List.mem_cons_self c cs, ⟨hc.1, hc.2⟩, rfl⟩
    next hc =>
      have hcs : ∃ c ∈ cs, c.name = "user_session" ∧ strContains c.domain "github.com" = true := by
        rcases h with ⟨c', hc', hm⟩
        rcases List.mem_cons.mp hc' with rfl | hmem
        · exact absurd (by simp [hm.1, hm.2]) hc
        · exact ⟨c', hmem, hm⟩
      rcases ih hcs with ⟨c', hm, hmm, hv⟩
      exact ⟨c', List.mem_cons_of_mem c hm, hmm, hv⟩

/-- C7: `get_session` returns the value of a cookie named by the known
session-cookie key (`user_session`) whose domain contains the provider
domain (`github.com`) when one exists, and `none` exactly when no cookie
matches; and whenever it returns `none` the rotation step makes no
attempt: neither a secret-store update nor a channel disclosure happens. -/
theorem C7_get_session_and_no_rotation (cookies : List Cookie) (secretOk : Bool) :
    ((∃ c ∈ cookies, c.name = "user_session" ∧ strContains c.domain "github.com" = true) →
      ∃ c ∈ cookies, (c.name = "user_session" ∧ strContains c.domain "github.com" = true) ∧
        get_session cookies = some c.value) ∧
    (get_session cookies = none ↔
      ∀ c ∈ cookies,
        ¬(c.name = "user_session" ∧ strContains c.domain "github.com" = true)) ∧
    (get_session cookies = none → rotationOf cookies secretOk = RotationEffect.noAttempt) := by
  refine ⟨get_session_finds cookies, get_session_eq_none_iff cookies, ?_⟩
  intro h
  simp [rotationOf, h]

/-- C7 witness: a jar with no matching cookie yields no session value and
no rotation attempt. -/
theorem C7_witness :
    get_session [⟨"other_cookie", "github.com", "v"⟩, ⟨"user_session", "gitlab.example", "w"⟩] =
      none ∧
    rotationOf [⟨"other_cookie", "github.com", "v"⟩, ⟨"user_session", "gitlab.example", "w"⟩]
      true = RotationEffect.noAttempt := by
  have h := C7_get_session_and_no_rotation
    [⟨"other_cookie", "github.com", "v"⟩, ⟨"user_session", "gitlab.example", "w"⟩] true
  have hn := h.2.1.mpr (by decide)
  exact ⟨hn, h.2.2 hn⟩

/-- Helper: characterization of the `wait_device` polling loop: it returns
true iff some check second (a multiple of 5 within the remaining fuel)
sees a tick success, or the URL observed when the fuel runs out is the
OAuth authorize page. -/
theorem wait_device_loop_eq_true_iff (trace : Nat → String) (fuel i : Nat) :
    wait_device_loop trace fuel i = true ↔
      ((∃ j, j < fuel ∧ (i + j) % 5 = 0 ∧ device_tick (trace (i + j)) = true) ∨
        strContains (trace (i + fuel)) "github.com/login/oauth/authorize" = true) := by
  induction fuel generalizing i with
  | zero => simp [wait_device_loop]
  | succ fuel ih =>
    simp only [wait_device_loop]
    split
    next hc =>
      rw [Bool.and_eq_true, decide_eq_true_eq] at hc
      simp only [true_iff]
      exact Or.inl ⟨0, Nat.succ_pos fuel, by simpa using hc.1, by simpa using hc.2⟩
    next hc =>
      rw [ih (i + 1)]
      constructor
      · rintro (⟨j, hj, hmod, ht⟩ | hfin)
        · refine Or.inl ⟨j + 1, by omega, ?_, ?_⟩
          · have : i + (j + 1) = i + 1 + j := by omega
            rw [this]; exact hmod
          · have : i + (j + 1) = i + 1 + j := by omega
            rw [this]; exact ht
        · refine Or.inr ?_
          have : i + (fuel + 1) = i + 1 + fuel := by omega
          rw [this]; exact hfin
      · rintro (⟨j, hj, hmod, ht⟩ | hfin)
        · match j with
          | 0 =>
            exact absurd (by simp [Nat.add_zero] at hmod ht; simp [hmod, ht]) hc
          | j' + 1 =>
            refine Or.inl ⟨j', by omega, ?_, ?_⟩
            · have : i + 1 + j' = i + (j' + 1) := by omega
              rw [this]; exact hmod
            · have : i + 1 + j' = i + (j' + 1) := by omega
              rw [this]; exact ht
        · refine Or.inr ?_
          have : i + 1 + fuel = i + (fuel + 1) := by omega
          rw [this]; exact hfin

/-- C6: the device-verification wait succeeds exactly when either some poll
tick (every fifth second within the 60-second budget) observes a URL that
has left the device-verification state (an OAuth-consent URL counts as
having left it, by the accelerated-success branch), or — the explicit
exception to the timeout rule — the wait expires while the page sits on
the OAuth-consent URL; in every other case the bounded wait expires to
failure. -/
theorem C6_wait_device_characterization (trace : Nat → String) :
    wait_device trace = true ↔
      ((∃ i, i < DEVICE_VERIFY_WAIT ∧ i % 5 = 0 ∧ device_tick (trace i) = true) ∨
        strContains (trace DEVICE_VERIFY_WAIT) "github.com/login/oauth/authorize" = true) := by
  simpa using wait_device_loop_eq_true_iff trace DEVICE_VERIFY_WAIT 0

/-- C8 counterexample: a run that reaches the Authenticated verdict with a
cookie jar containing no `user_session` cookie exits with status 0 while
no rotation attempt is made at all, refuting the claim that exit status 0
requires a rotation attempt. -/
theorem C8_counterexample :
    run ⟨some "u", some "p", true, true, "https://github.com/login/oauth/authorize", true,
        fun _ => "https://us-east-1.run.claw.cloud/dashboard",
        "https://us-east-1.run.claw.cloud/dashboard", [], false⟩ =
      ⟨ExitStatus.exit0, RotationEffect.noAttempt, true⟩ := by
  rfl

/-- C8 (amended): the process exits 0 exactly when the run reaches the
Authenticated verdict (all steps succeed and the final URL satisfies the
success predicate); the secret-store outcome never influences the exit
status (a failed rotation attempt, or no extractable cookie at all, still
exits 0); missing mandatory credentials exit non-zero with no run
attempted and no rotation. -/
theorem C8_amended_exit_status (env : RunEnv) :
    ((run env).exit = ExitStatus.exit0 ↔
      (credMissing env.username = false ∧ credMissing env.password = false ∧
        env.clickGithubOk = true ∧ env.redirectObserved = true ∧
        (needsGithubLogin env.urlAfterClick = true → env.loginOk = true) ∧
        (wait_redirect env.redirectTrace initRegionState).1 = true ∧
        assert_runcloud_not_signin env.finalUrl = true)) ∧
    (∀ b, (run (setSecretOk env b)).exit = (run env).exit) ∧
    ((credMissing env.username = true ∨ credMissing env.password = true) →
      run env = ⟨ExitStatus.exit1, RotationEffect.noAttempt, false⟩) := by
  refine ⟨?_, ?_, ?_⟩
  · cases hu : credMissing env.username <;> cases hp : credMissing env.password <;>
      cases hc : env.clickGithubOk <;> cases hr : env.redirectObserved <;>
        cases hn : needsGithubLogin env.urlAfterClick <;> cases hl : env.loginOk <;>
          cases hw : (wait_redirect env.redirectTrace initRegionState).1 <;>
            cases ha : assert_runcloud_not_signin env.finalUrl <;>
              simp [run, hu, hp, hc, hr, hn, hl, hw, ha]
  · intro b
    cases hu : credMissing env.username <;> cases hp : credMissing env.password <;>
      cases hc : env.clickGithubOk <;> cases hr : env.redirectObserved <;>
        cases hn : needsGithubLogin env.urlAfterClick <;> cases hl : env.loginOk <;>
          cases hw : (wait_redirect env.redirectTrace initRegionState).1 <;>
            cases ha : assert_runcloud_not_signin env.finalUrl <;>
              simp [run, setSecretOk, hu, hp, hc, hr, hn, hl, hw, ha]
  · intro h
    rcases h with h | h <;> simp [run, h]

/-- C8 witness: a run with a missing username exits 1 with nothing
attempted. -/
theorem C8_witness :
    run ⟨none, some "p", true, true, "", true, fun _ => "", "", [], true⟩ =
      ⟨ExitStatus.exit1, RotationEffect.noAttempt, false⟩ :=
  (C8_amended_exit_status ⟨none, some "p", true, true, "", true, fun _ => "", "", [], true⟩).2.2
    (Or.inl rfl)

/-! ## Lemmas about the Telegram polling protocol -/

/-- Helper: a batch whose ids all precede the cursor filters to nothing. -/
theorem filter_cursor_nil (o : Nat) (l : List Update)
    (h : ∀ u ∈ l, u.update_id < o) :
    (l.filter fun u => decide (o ≤ u.update_id)) = [] := by
  rw [List.filter_eq_nil_iff]
  intro u hu
  simpa using Nat.not_le.mpr (h u hu)

/-- Helper: a batch whose ids all reach the cursor filters to itself. -/
theorem filter_cursor_all (o : Nat) (l : List Update)
    (h : ∀ u ∈ l, o ≤ u.update_id) :
    (l.filter fun u => decide (o ≤ u.update_id)) = l := by
  rw [List.filter_eq_self]
  intro u hu
  simpa using h u hu

/-- Helper: the code returned by one batch scan is the first authorized,
grammar-matching code of the batch (the cursor does not influence it). -/
theorem processBatch_fst (chatId : Int) :
    ∀ (l : List Update) (o : Nat), (processBatch chatId l o).1 = findCode chatId l := by
  intro l
  induction l with
  | nil => intro o; rfl
  | cons u rest ih =>
    intro o
    by_cases h : u.chat_id = chatId
    · cases hc : codeOf u.text with
      | none => simp [processBatch, findCode, h, hc, ih]
      | some c => simp [processBatch, findCode, h, hc]
    · simp [processBatch, findCode, h, ih]

/-- Helper: when a batch scan accepts nothing, the cursor ends one past the
last id in the batch. -/
theorem processBatch_snd (chatId : Int) :
    ∀ (l : List Update) (o : Nat), findCode chatId l = none →
      (processBatch chatId l o).2 = advanceCursor l o := by
  intro l
  induction l with
  | nil => intro o _; rfl
  | cons u rest ih =>
    intro o h
    have hAdv : ∀ o' : Nat, advanceCursor (u :: rest) o' = advanceCursor rest (u.update_id + 1) := by
      intro o'
      cases rest with
      | nil => simp [advanceCursor, List.getLast?_singleton]
      | cons v vs =>
        cases hgl : (v :: vs).getLast? with
        | none => exact absurd (List.getLast?_eq_none_iff.mp hgl) (by simp)
        | some x => simp [advanceCursor, List.getLast?_cons_cons, hgl]
    by_cases hch : u.chat_id = chatId
    · cases hc : codeOf u.text with
      | some c => simp [findCode, hch, hc] at h
      | none =>
        have hrest : findCode chatId rest = none := by simpa [findCode, hch, hc] using h
        rw [hAdv o, ← ih (u.update_id + 1) hrest]
        simp [processBatch, hch, hc]
    · have hrest : findCode chatId rest = none := by simpa [findCode, hch] using h
      rw [hAdv o, ← ih (u.update_id + 1) hrest]
      simp [processBatch, hch]

/-- Helper: scanning past a rejected prefix finds the code of the suffix. -/
theorem findCode_append_none (chatId : Int) (l2 : List Update) :
    ∀ l1, findCode chatId l1 = none →
      findCode chatId (l1 ++ l2) = findCode chatId l2 := by
  intro l1
  induction l1 with
  | nil => intro _; rfl
  | cons u rest ih =>
    intro h
    by_cases hch : u.chat_id = chatId
    · cases hc : codeOf u.text with
      | some c => simp [findCode, hch, hc] at h
      | none =>
        have hrest : findCode chatId rest = none := by simpa [findCode, hch, hc] using h
        simpa [findCode, hch, hc] using ih hrest
    · have hrest : findCode chatId rest = none := by simpa [findCode, hch] using h
      simpa [findCode, hch] using ih hrest

/-- Helper: a code accepted in a prefix is the code of the whole stream. -/
theorem findCode_append_some (chatId : Int) (l2 : List Update) (c : String) :
    ∀ l1, findCode chatId l1 = some c →
      findCode chatId (l1 ++ l2) = some c := by
  intro l1
  induction l1 with
  | nil => intro h; simp [findCode] at h
  | cons u rest ih =>
    intro h
    by_cases hch : u.chat_id = chatId
    · cases hc : codeOf u.text with
      | some c' =>
        have : c' = c := by simpa [findCode, hch, hc] using h
        subst this
        simp [findCode, hch, hc]
      | none =>
        have hrest : findCode chatId rest = some c := by simpa [findCode, hch, hc] using h
        simpa [findCode, hch, hc] using ih hrest
    · have hrest : findCode chatId rest = some c := by simpa [findCode, hch] using h
      simpa [findCode, hch] using ih hrest

/-- Helper: with non-decreasing ids, every id of the batch is below the
advanced cursor. -/
theorem lt_advanceCursor_of_pairwise (o : Nat) :
    ∀ l : List Update, l.Pairwise (fun a b => a.update_id ≤ b.update_id) →
      ∀ u ∈ l, u.update_id < advanceCursor l o := by
  intro l
  induction l with
  | nil => intro _ u hu; simp at hu
  | cons a rest ih =>
    intro hp u hu
    rcases List.pairwise_cons.mp hp with ⟨ha, hrest⟩
    cases rest with
    | nil =>
      have : u = a := by simpa using hu
      subst this
      simp [advanceCursor, List.getLast?_singleton]
    | cons b vs =>
      have hAdv : advanceCursor (a :: b :: vs) o = advanceCursor (b :: vs) o := by
        simp [advanceCursor, List.getLast?_cons_cons]
      rw [hAdv]
      rcases List.mem_cons.mp hu with rfl | hmem
      · have h1 : u.update_id ≤ b.update_id := ha b (List.mem_cons_self b vs)
        have h2 : b.update_id < advanceCursor (b :: vs) o :=
          ih hrest b (List.mem_cons_self b vs)
        omega
      · exact ih hrest u hmem

/-- Helper: advancing the cursor over a batch beyond it never decreases it. -/
theorem le_advanceCursor (o : Nat) (l : List Update)
    (h : ∀ u ∈ l, o ≤ u.update_id) : o ≤ advanceCursor l o := by
  cases hl : l.getLast? with
  | none => simp [advanceCursor, hl]
  | some x =>
    have hx : x ∈ l := List.mem_of_mem_getLast? (by rw [hl]; rfl)
    have h2 : advanceCursor l o = x.update_id + 1 := by simp [advanceCursor, hl]
    have := h x hx
    omega

/-- Helper: with strictly increasing ids, the cursor advanced over a
processed chunk is at most every id still pending. -/
theorem advanceCursor_le_pending (offset m : Nat) (pending : List Update)
    (hpw : pending.Pairwise (fun a b => a.update_id < b.update_id))
    (hp : ∀ u ∈ pending, offset ≤ u.update_id) :
    ∀ u ∈ pending.drop m, advanceCursor (pending.take m) offset ≤ u.update_id := by
  intro u hu
  cases hl : (pending.take m).getLast? with
  | none =>
    have htn : pending.take m = [] := List.getLast?_eq_none_iff.mp hl
    have hAdv : advanceCursor (pending.take m) offset = offset := by
      simp [advanceCursor, hl]
    rw [hAdv]
    rcases List.take_eq_nil_iff.mp htn with rfl | rfl
    · exact hp u (by simpa [List.drop_zero] using hu)
    · simp at hu
  | some x =>
    have hx : x ∈ pending.take m := List.mem_of_mem_getLast? (by rw [hl]; rfl)
    have hcross : x.update_id < u.update_id := by
      have hpw2 := hpw
      rw [← List.take_append_drop m pending] at hpw2
      exact (List.pairwise_append.mp hpw2).2.2 x hx u hu
    have hAdv : advanceCursor (pending.take m) offset = x.update_id + 1 := by
      simp [advanceCursor, hl]
    omega

/-- Helper: the main correctness invariant of the `wait_code` polling loop.
The global ordered stream of post-flush messages is `stream`; at tick `t`,
the prefix `stream.take (k t)` has arrived at the server; `done` is the
already-scanned (and rejected) prefix of the stream and `pending` the
rest; the cursor `offset` separates them.  The loop returns the first
authorized, grammar-matching code of `pending` (given enough fuel for the
full stream to arrive), or `none` on timeout. -/
theorem wait_code_loop_correct (chatId : Int) (backlog stream : List Update)
    (k : Nat → Nat) (hmono : ∀ a b : Nat, a ≤ b → k a ≤ k b) :
    ∀ (fuel t offset : Nat) (done pending : List Update),
      stream = done ++ pending →
      (∀ u ∈ backlog, u.update_id < offset) →
      (∀ u ∈ done, u.update_id < offset) →
      (∀ u ∈ pending, offset ≤ u.update_id) →
      findCode chatId done = none →
      done.length ≤ k t →
      pending.Pairwise (fun a b => a.update_id < b.update_id) →
      (pending = [] ∨ ∃ s, s < fuel ∧ stream.length ≤ k (t + s)) →
      wait_code_loop chatId (fun t' => backlog ++ stream.take (k t')) fuel t offset =
        findCode chatId pending := by
  intro fuel
  induction fuel with
  | zero =>
    intro t offset done pending hs hb hd hp hfc hlen hpw hterm
    rcases hterm with rfl | ⟨s, hs0, _⟩
    · rfl
    · omega
  | succ fuel ih =>
    intro t offset done pending hs hb hd hp hfc hlen hpw hterm
    have hm : done.length + (k t - done.length) = k t := by omega
    set m := k t - done.length with hmdef
    have htake : stream.take (k t) = done ++ pending.take m := by
      rw [hs, List.take_append_eq_append_take, List.take_of_length_le hlen]
    have hchunkmem : ∀ u ∈ pending.take m, offset ≤ u.update_id :=
      fun u hu => hp u (List.take_subset m pending hu)
    have hchunkpw : (pending.take m).Pairwise (fun a b => a.update_id < b.update_id) :=
      hpw.sublist (List.take_sublist m pending)
    have hbatch : ((backlog ++ stream.take (k t)).filter
        fun u => decide (offset ≤ u.update_id)) = pending.take m := by
      rw [htake, List.filter_append, List.filter_append,
        filter_cursor_nil offset backlog hb,
        filter_cursor_nil offset done hd,
        filter_cursor_all offset (pending.take m) hchunkmem]
      simp
    simp only [wait_code_loop]
    rw [hbatch]
    rcases hpb : processBatch chatId (pending.take m) offset with ⟨r, o2⟩
    have hr : r = findCode chatId (pending.take m) := by
      rw [← processBatch_fst chatId (pending.take m) offset, hpb]
    cases hfind : findCode chatId (pending.take m) with
    | some c =>
      rw [hfind] at hr
      subst hr
      rw [← List.take_append_drop m pending,
        findCode_append_some chatId (pending.drop m) c (pending.take m) hfind]
    | none =>
      rw [hfind] at hr
      subst hr
      have ho2 : o2 = advanceCursor (pending.take m) offset := by
        rw [← processBatch_snd chatId (pending.take m) offset hfind, hpb]
      have hoo : offset ≤ o2 := by
        rw [ho2]; exact le_advanceCursor offset (pending.take m) hchunkmem
      have hrhs : findCode chatId pending = findCode chatId (pending.drop m) := by
        conv =>
          lhs
          rw [← List.take_append_drop m pending]
        exact findCode_append_none chatId (pending.drop m) (pending.take m) hfind
      rw [hrhs]
      have htklen : (pending.take m).length ≤ m := by
        rw [List.length_take]; exact Nat.min_le_left m pending.length
      refine ih (t + 1) o2 (done ++ pending.take m) (pending.drop m) ?_ ?_ ?_ ?_ ?_ ?_ ?_ ?_
      · rw [hs, List.append_assoc, List.take_append_drop]
      · intro u hu
        have := hb u hu
        omega
      · intro u hu
        rcases List.mem_append.mp hu with h | h
        · have := hd u h
          omega
        · have := lt_advanceCursor_of_pairwise offset (pending.take m)
            (hchunkpw.imp fun hab => Nat.le_of_lt hab) u h
          omega
      · rw [ho2]
        exact advanceCursor_le_pending offset m pending hpw hp
      · rw [findCode_append_none chatId (pending.take m) done hfc]
        exact hfind
      · have hk1 : k t ≤ k (t + 1) := hmono t (t + 1) (Nat.le_succ t)
        rw [List.length_append]
        omega
      · exact hpw.sublist (List.drop_sublist m pending)
      · rcases hterm with rfl | ⟨s, hsf, hsl⟩
        · left; simp
        · match s with
          | 0 =>
            left
            have hsl0 : stream.length ≤ k t := by simpa using hsl
            have hslen : stream.length = done.length + pending.length := by
              rw [hs, List.length_append]
            exact List.drop_eq_nil_of_le (by omega)
          | s' + 1 =>
            right
            refine ⟨s', by omega, ?_⟩
            have : t + 1 + s' = t + (s' + 1) := by omega
            rw [this]
            exact hsl

/-- C3: `wait_code` first advances the cursor past the whole backlog
(`flush_updates`), so with any pre-seeded backlog (ordered by update id,
as the Telegram feed is) and no new message arriving before the timeout,
every poll sees an empty batch and the wait returns `none` — no backlog
code ever leaks through, whatever the texts of the backlog messages. -/
theorem C3_stale_backlog_returns_none (chatId : Int) (backlog : List Update)
    (fuel : Nat)
    (hsorted : backlog.Pairwise (fun a b => a.update_id ≤ b.update_id)) :
    wait_code chatId backlog (fun _ => backlog) fuel = none := by
  have hbound : ∀ u ∈ backlog, u.update_id < flush_updates backlog := by
    have h : flush_updates backlog = advanceCursor backlog 0 := rfl
    rw [h]
    exact lt_advanceCursor_of_pairwise 0 backlog hsorted
  suffices h : ∀ f t, wait_code_loop chatId (fun _ => backlog) f t (flush_updates backlog) = none by
    exact h fuel 0
  intro f
  induction f with
  | zero => intro t; rfl
  | succ f ih =>
    intro t
    have hfilter : (backlog.filter fun u => decide (flush_updates backlog ≤ u.update_id)) = [] :=
      filter_cursor_nil _ _ hbound
    simp only [wait_code_loop, hfilter, processBatch]
    exact ih (t + 1)

/-- C3 witness: a backlog of two stale `/code` messages from the authorized
chat, with no new messages, yields `none`. -/
theorem C3_witness :
    wait_code 777 [⟨1, 777, "/code 654321"⟩, ⟨2, 777, "/code 111111"⟩]
      (fun _ => [⟨1, 777, "/code 654321"⟩, ⟨2, 777, "/code 111111"⟩]) 5 = none :=
  C3_stale_backlog_returns_none 777
    [⟨1, 777, "/code 654321"⟩, ⟨2, 777, "/code 111111"⟩] 5 (by decide)

/-- C4: for every ordered stream of messages arriving after the flush
(ids strictly increase across backlog and stream, as in the Telegram
feed; the arrival schedule `k` is monotone and delivers the whole stream
within the timeout), `wait_code` returns exactly what one in-order scan of
the stream accepts: the digit string of the first message that both
originates from the authorized chat id and matches the `/code` 6-8-digit
grammar — skipping foreign-chat and grammar-violating messages — and
`none` when the stream contains no such message. -/
theorem C4_wait_code_returns_first_authorized_code (chatId : Int)
    (backlog new : List Update) (k : Nat → Nat) (fuel : Nat)
    (hsorted : (backlog ++ new).Pairwise (fun a b => a.update_id < b.update_id))
    (hmono : ∀ a b : Nat, a ≤ b → k a ≤ k b)
    (harrive : ∃ t, t < fuel ∧ new.length ≤ k t) :
    wait_code chatId backlog (fun t => backlog ++ new.take (k t)) fuel =
      findCode chatId new := by
  have hsb : backlog.Pairwise (fun a b => a.update_id < b.update_id) :=
    (List.pairwise_append.mp hsorted).1
  have hsn : new.Pairwise (fun a b => a.update_id < b.update_id) :=
    (List.pairwise_append.mp hsorted).2.1
  have hcross : ∀ a ∈ backlog, ∀ b ∈ new, a.update_id < b.update_id :=
    (List.pairwise_append.mp hsorted).2.2
  have hflush : ∀ u ∈ backlog, u.update_id < flush_updates backlog := by
    have h : flush_updates backlog = advanceCursor backlog 0 := rfl
    rw [h]
    exact lt_advanceCursor_of_pairwise 0 backlog (hsb.imp fun hab => Nat.le_of_lt hab)
  have hnew : ∀ u ∈ new, flush_updates backlog ≤ u.update_id := by
    intro u hu
    cases hbl : backlog.getLast? with
    | none => simp [flush_updates, hbl]
    | some x =>
      have hx : x ∈ backlog := List.mem_of_mem_getLast? (by rw [hbl]; rfl)
      have h1 := hcross x hx u hu
      have h2 : flush_updates backlog = x.update_id + 1 := by simp [flush_updates, hbl]
      omega
  have hmain := wait_code_loop_correct chatId backlog new k hmono fuel 0
    (flush_updates backlog) [] new (by simp) hflush (by simp) hnew rfl
    (by simp) hsn (Or.inr (by simpa using harrive))
  simpa [wait_code] using hmain

/-- C4 witness: the stream carries (in order) a foreign-chat valid code, a
grammar-violating `/code 12AB34`, an unrelated text, then a valid code
from the authorized chat; the wait skips the first three and returns the
fourth, in spite of the stale backlog code. -/
theorem C4_witness :
    wait_code 777 [⟨1, 777, "/code 999999"⟩]
      (fun t => [⟨1, 777, "/code 999999"⟩] ++
        ([⟨2, 555, "/code 111111"⟩, ⟨3, 777, "/code 12AB34"⟩, ⟨4, 777, "hello"⟩,
          ⟨5, 777, "/code 482913"⟩].take ((fun _ : Nat => 4) t))) 2 = some "482913" := by
  have h := C4_wait_code_returns_first_authorized_code 777
    [⟨1, 777, "/code 999999"⟩]
    [⟨2, 555, "/code 111111"⟩, ⟨3, 777, "/code 12AB34"⟩, ⟨4, 777, "hello"⟩,
      ⟨5, 777, "/code 482913"⟩]
    (fun _ : Nat => 4) 2 (by decide) (fun _ _ _ => Nat.le_refl 4) ⟨0, by omega, by decide⟩
  exact h.trans (by rfl)

/-! ## Lemmas about URL parsing and region resolution -/

/-- Helper: two strings with the same character data are equal. -/
theorem string_ext (a b : String) (h : a.data = b.data) : a = b := by
  cases a; cases b; cases h; rfl

/-- Helper: a list is a prefix of itself followed by anything. -/
theorem isPrefixOfC_append (p rest : List Char) : isPrefixOfC p (p ++ rest) = true := by
  induction p with
  | nil => rfl
  | cons c cs ih => simp [isPrefixOfC, ih]

/-- Helper: appending a suffix makes `endsWithC` hold. -/
theorem endsWithC_append (l s : List Char) : endsWithC (l ++ s) s = true := by
  rw [endsWithC, List.reverse_append]
  exact isPrefixOfC_append s.reverse l.reverse

/-- Helper: `takeWhile` passes over a block that satisfies the predicate. -/
theorem takeWhile_append_of_all (p : Char → Bool) :
    ∀ (l1 l2 : List Char), (∀ c ∈ l1, p c = true) →
      (l1 ++ l2).takeWhile p = l1 ++ l2.takeWhile p := by
  intro l1
  induction l1 with
  | nil => intro l2 _; rfl
  | cons c cs ih =>
    intro l2 h
    have hc : p c = true := h c (List.mem_cons_self c cs)
    simp only [List.cons_append, List.takeWhile_cons, hc, if_true]
    rw [ih l2 fun c' hc' => h c' (List.mem_cons_of_mem c hc')]

/-- Helper: removing every occurrence of a needle from `t ++ needle` gives
back `t` when no character of `t` equals the first character of the
needle (so no occurrence can start inside `t`). -/
theorem replaceAllFuel_strip (d : Char) (needle : List Char)
    (hn : needle.head? = some d) :
    ∀ (t : List Char) (fuel : Nat), (∀ c ∈ t, c ≠ d) →
      (t ++ needle).length ≤ fuel →
      replaceAllFuel needle [] fuel (t ++ needle) = t := by
  intro t
  induction t with
  | nil =>
    intro fuel _ hf
    cases needle with
    | nil => simp at hn
    | cons d0 ntail =>
      have hd0 : d0 = d := by simpa using hn
      cases fuel with
      | zero => simp at hf
      | succ f =>
        show replaceAllFuel (d0 :: ntail) [] (f + 1) (d0 :: ntail) = []
        rw [replaceAllFuel]
        have hpre : isPrefixOfC (d0 :: ntail) (d0 :: ntail) = true := by
          have := isPrefixOfC_append (d0 :: ntail) []
          simpa using this
        rw [if_pos hpre]
        have hdrop : List.drop ((d0 :: ntail).length - 1) ntail = [] :=
          List.drop_eq_nil_of_le (by simp)
        rw [hdrop]
        cases f <;> rfl
  | cons c cs ih =>
    intro fuel h hf
    cases fuel with
    | zero => simp at hf
    | succ f =>
      show replaceAllFuel needle [] (f + 1) (c :: (cs ++ needle)) = c :: cs
      rw [replaceAllFuel]
      have hpre : isPrefixOfC needle (c :: (cs ++ needle)) = false := by
        cases needle with
        | nil => simp at hn
        | cons d0 ntail =>
          have hd0 : d0 = d := by simpa using hn
          have hcd : ¬(d0 = c) := by
            rw [hd0]
            exact fun he => h c (List.mem_cons_self c cs) he.symm
          simp [isPrefixOfC, hcd]
      rw [if_neg (by simp [hpre])]
      have hrec : replaceAllFuel needle [] f (cs ++ needle) = cs :=
        ih f (fun c' hc' => h c' (List.mem_cons_of_mem c hc')) (by
          simp only [List.length_append] at hf ⊢
          simp only [List.length_cons] at hf
          omega)
      rw [hrec]

/-- Helper: `str.replace(needle, "")` on `t ++ needle` gives `t` when `t`
avoids the first needle character. -/
theorem replaceAllC_strip (d : Char) (needle : List Char) (hn : needle.head? = some d)
    (t : List Char) (ht : ∀ c ∈ t, c ≠ d) :
    replaceAllC needle [] (t ++ needle) = t :=
  replaceAllFuel_strip d needle hn t (t ++ needle).length ht (Nat.le_refl _)

/-- Helper: splitting the scheme of an `https:`-prefixed URL. -/
theorem splitScheme_https (l : List Char) :
    splitSchemeC ('h' :: 't' :: 't' :: 'p' :: 's' :: ':' :: l) =
      (['h', 't', 't', 'p', 's'], l) := rfl

/-- Helper: a tenant-label character (lowercase letter, digit or dash) is
not a URL delimiter. -/
theorem label_char_not_delim (c : Char)
    (h : isLowerAZ c = true ∨ isDigitC c = true ∨ c = '-') :
    (!(c = '/' || c = '?' || c = '#')) = true := by
  have h1 : c ≠ '/' := by rintro rfl; simp [isLowerAZ, isDigitC] at h
  have h2 : c ≠ '?' := by rintro rfl; simp [isLowerAZ, isDigitC] at h
  have h3 : c ≠ '#' := by rintro rfl; simp [isLowerAZ, isDigitC] at h
  simp [h1, h2, h3]

/-- Helper: a tenant-label character is not a dot. -/
theorem label_char_not_dot (c : Char)
    (h : isLowerAZ c = true ∨ isDigitC c = true ∨ c = '-') : c ≠ '.' := by
  rintro rfl; simp [isLowerAZ, isDigitC] at h

/-- Helper: scheme and netloc of a constructed tenant URL
`https://<t>.run.claw.cloud<path>`, for a label `t` of lowercase letters,
digits and dashes and a path that is empty or starts with `/`. -/
theorem url_parts_of_tenant (t path : String)
    (hchars : ∀ c ∈ t.toList, isLowerAZ c = true ∨ isDigitC c = true ∨ c = '-')
    (hpath : path.toList = [] ∨ ∃ cs, path.toList = '/' :: cs) :
    urlScheme ("https://" ++ t ++ ".run.claw.cloud" ++ path) = "https" ∧
    (urlNetloc ("https://" ++ t ++ ".run.claw.cloud" ++ path)).toList =
      t.toList ++ ".run.claw.cloud".toList := by
  have hdata : ("https://" ++ t ++ ".run.claw.cloud" ++ path).toList =
      'h' :: 't' :: 't' :: 'p' :: 's' :: ':' :: '/' :: '/' ::
        (t.toList ++ (".run.claw.cloud".toList ++ path.toList)) := by
    show ("https://" ++ t ++ ".run.claw.cloud" ++ path).data = _
    rw [String.data_append, String.data_append, String.data_append]
    have h8 : "https://".data = ['h', 't', 't', 'p', 's', ':', '/', '/'] := by decide
    rw [h8]
    simp [List.append_assoc]
  have hsplit : splitSchemeC ("https://" ++ t ++ ".run.claw.cloud" ++ path).toList =
      (['h', 't', 't', 'p', 's'],
        '/' :: '/' :: (t.toList ++ (".run.claw.cloud".toList ++ path.toList))) := by
    rw [hdata]
    exact splitScheme_https _
  have htw : (t.toList ++ (".run.claw.cloud".toList ++ path.toList)).takeWhile
      (fun c => !(c = '/' || c = '?' || c = '#')) =
      t.toList ++ ".run.claw.cloud".toList := by
    rw [← List.append_assoc]
    rw [takeWhile_append_of_all _ (t.toList ++ ".run.claw.cloud".toList) path.toList ?all]
    case all =>
      have hsuf : ∀ c ∈ ".run.claw.cloud".toList,
          (!(c = '/' || c = '?' || c = '#')) = true := by decide
      intro c hc
      rcases List.mem_append.mp hc with h | h
      · exact label_char_not_delim c (hchars c h)
      · exact hsuf c h
    have hpathtw : path.toList.takeWhile (fun c => !(c = '/' || c = '?' || c = '#')) = [] := by
      rcases hpath with h | ⟨cs, h⟩ <;> rw [h]
      · rfl
      · simp [List.takeWhile_cons]
    rw [hpathtw, List.append_nil]
  refine ⟨?_, ?_⟩
  · show String.mk (splitSchemeC ("https://" ++ t ++ ".run.claw.cloud" ++ path).toList).1 = "https"
    rw [hsplit]
  · show (String.mk (netlocOfRest
      (splitSchemeC ("https://" ++ t ++ ".run.claw.cloud" ++ path).toList).2)).toList = _
    rw [hsplit]
    show (t.toList ++ (".run.claw.cloud".toList ++ path.toList)).takeWhile _ = _
    exact htw

/-- C5 counterexample: the resolver is not the three-label pattern matcher
of the claim.  On the five-label host `a.b.run.claw.cloud` (which either
does not match the three-label tenant pattern, so the claim demands null,
or matches it, so the claim demands the leading label `"a"`), the code
returns the full multi-label prefix `"a.b"`.  And on a legacy
`*.console.claw.cloud` host the code returns a non-null region whose
rebuilt base URL lives on the `run.claw.cloud` domain, an origin different
from the origin of the original URL, refuting the resolve-rebuild
round-trip as stated. -/
theorem C5_counterexample :
    (detect_region initRegionState "https://a.b.run.claw.cloud/x").1 = some "a.b" ∧
    "a.b" ≠ "a" ∧
    (detect_region initRegionState "http://us-east-1.console.claw.cloud/apps").1 =
      some "us-east-1" ∧
    (detect_region initRegionState "http://us-east-1.console.claw.cloud/apps").2.region_base_url =
      some "https://us-east-1.run.claw.cloud" ∧
    urlScheme "http://us-east-1.console.claw.cloud/apps" ++ "://" ++
      urlNetloc "http://us-east-1.console.claw.cloud/apps" =
      "http://us-east-1.console.claw.cloud" ∧
    ("https://us-east-1.run.claw.cloud" : String) ≠ "http://us-east-1.console.claw.cloud" := by
  refine ⟨by decide, by decide, by decide, by decide, by decide, by decide⟩

/-- C5 (amended): on a single-label tenant host the resolve-rebuild
round-trip does hold: for every label `t` of lowercase letters, digits and
dashes and every path that is empty or starts with `/`, `detect_region` on
`https://<t>.run.claw.cloud<path>` returns exactly `t`, stores
`https://<t>.run.claw.cloud` as the region base URL, and that base URL is
precisely the origin (scheme://netloc) of the original URL.  (On hosts
with a multi-label prefix the code returns the whole prefix, on legacy
console hosts it rebuilds onto the run domain, and otherwise it returns
null — the counterexample and the C10 theorem document those branches.) -/
theorem C5_amended_tenant_round_trip (st : RegionState) (t path : String)
    (hchars : ∀ c ∈ t.toList, isLowerAZ c = true ∨ isDigitC c = true ∨ c = '-')
    (hpath : path.toList = [] ∨ ∃ cs, path.toList = '/' :: cs) :
    (detect_region st ("https://" ++ t ++ ".run.claw.cloud" ++ path)).1 = some t ∧
    (detect_region st ("https://" ++ t ++ ".run.claw.cloud" ++ path)).2.region_base_url =
      some ("https://" ++ (t ++ ".run.claw.cloud")) ∧
    urlScheme ("https://" ++ t ++ ".run.claw.cloud" ++ path) ++ "://" ++
      urlNetloc ("https://" ++ t ++ ".run.claw.cloud" ++ path) =
      "https://" ++ (t ++ ".run.claw.cloud") := by
  obtain ⟨hscheme, hnetd⟩ := url_parts_of_tenant t path hchars hpath
  have hnet : urlNetloc ("https://" ++ t ++ ".run.claw.cloud" ++ path) =
      t ++ ".run.claw.cloud" := by
    refine string_ext _ _ ?_
    show (urlNetloc ("https://" ++ t ++ ".run.claw.cloud" ++ path)).toList =
      (t ++ ".run.claw.cloud").data
    rw [hnetd, String.data_append]
    rfl
  have hends : endsWithC
      (urlNetloc ("https://" ++ t ++ ".run.claw.cloud" ++ path)).toList
      ".run.claw.cloud".toList = true := by
    rw [hnetd]
    exact endsWithC_append _ _
  have hne : ¬(urlNetloc ("https://" ++ t ++ ".run.claw.cloud" ++ path) =
      "run.claw.cloud") := by
    intro he
    have hd : (urlNetloc ("https://" ++ t ++ ".run.claw.cloud" ++ path)).toList =
        "run.claw.cloud".toList := by rw [he]
    rw [hnetd] at hd
    have hlen := congrArg List.length hd
    have l1 : (".run.claw.cloud".toList).length = 15 := by decide
    have l2 : ("run.claw.cloud".toList).length = 14 := by decide
    rw [List.length_append, l1, l2] at hlen
    omega
  have hcond : (endsWithC
      (urlNetloc ("https://" ++ t ++ ".run.claw.cloud" ++ path)).toList
      ".run.claw.cloud".toList &&
      !(urlNetloc ("https://" ++ t ++ ".run.claw.cloud" ++ path) =
        "run.claw.cloud")) = true := by
    rw [hends, Bool.true_and]
    simpa using hne
  have hrepl : replaceAllC ".run.claw.cloud".toList []
      (urlNetloc ("https://" ++ t ++ ".run.claw.cloud" ++ path)).toList = t.toList := by
    rw [hnetd]
    exact replaceAllC_strip '.' ".run.claw.cloud".toList (by decide) t.toList
      fun c hc => label_char_not_dot c (hchars c hc)
  refine ⟨?_, ?_, ?_⟩
  · show (detect_region st ("https://" ++ t ++ ".run.claw.cloud" ++ path)).1 = some t
    simp only [detect_region]
    rw [if_pos hcond]
    show some (String.mk (replaceAllC ".run.claw.cloud".toList []
      (urlNetloc ("https://" ++ t ++ ".run.claw.cloud" ++ path)).toList)) = some t
    rw [hrepl]
    exact congrArg some (string_ext (String.mk t.toList) t rfl)
  · simp only [detect_region]
    rw [if_pos hcond]
    show some ("https://" ++ urlNetloc ("https://" ++ t ++ ".run.claw.cloud" ++ path)) =
      some ("https://" ++ (t ++ ".run.claw.cloud"))
    rw [hnet]
  · rw [hscheme, hnet]
    have h1 : ("https" : String) ++ "://" = "https://" := by decide
    rw [String.append_assoc, ← String.append_assoc "https" "://", h1]

/-- C5 witness: the amended round-trip theorem applied at the concrete
tenant label `us-east-1` with path `/signin`. -/
theorem C5_amended_witness :
    (detect_region initRegionState "https://us-east-1.run.claw.cloud/signin").1 =
      some "us-east-1" ∧
    (detect_region initRegionState
      "https://us-east-1.run.claw.cloud/signin").2.region_base_url =
      some "https://us-east-1.run.claw.cloud" := by
  have h := C5_amended_tenant_round_trip initRegionState "us-east-1" "/signin"
    (by decide) (Or.inr ⟨"signin".toList, by decide⟩)
  refine ⟨?_, ?_⟩
  · have h1 := h.1
    rw [show ("https://" ++ "us-east-1" ++ ".run.claw.cloud" ++ "/signin" : String) =
      "https://us-east-1.run.claw.cloud/signin" by decide] at h1
    exact h1
  · have h2 := h.2.1
    rw [show ("https://" ++ "us-east-1" ++ ".run.claw.cloud" ++ "/signin" : String) =
      "https://us-east-1.run.claw.cloud/signin" by decide,
      show ("https://" ++ ("us-east-1" ++ ".run.claw.cloud") : String) =
      "https://us-east-1.run.claw.cloud" by decide] at h2
    exact h2

end AutoLoginModel
